import Mathlib

/-!
Shallow embedding of `bucket_query.go` from the gocb repository: the view/spatial
query executor and the lazy row iterator (`viewResults`) it returns.

Modelling conventions:
- Go `error` values are the inductive `GoError`; a nil error is `Option.none`.
- `json.RawMessage` (opaque serialized row payloads) is a `String`.
- `json.Unmarshal(row, valuePtr)` is a caller-supplied decode function
  `RawMessage → Except GoError α`; the value written through `valuePtr` on a
  successful decode is returned as `Option α`.
- Go methods that mutate the receiver return the updated `viewResults` state
  explicitly.
- The HTTP transport (`doHttpWithTimeout`, an external collaborator) is a
  parameter `HttpRequest → Except GoError HttpResponse`; the result of decoding
  the response body into the envelope (`jsonDec.Decode`) is predetermined by the
  response, as the field `HttpResponse.Body`.
- Side effects of the executor that the spec talks about (which request was
  dispatched, whether `resp.Body.Close()` was reached) are returned in an
  `ExecEffects` record alongside the result.
-/

namespace gocb

/-- Opaque serialized row payload, Go `json.RawMessage`. -/
abbrev RawMessage : Type := String

/-- Embeds the Go struct `viewError` (`Message`, `Reason`), source lines 17-20. -/
structure viewError where
  Message : String
  Reason : String
deriving DecidableEq, Repr

/-- Embeds `(e *viewError) Error()`, source lines 22-24. -/
def viewError.Error (e : viewError) : String :=
  e.Message ++ " - " ++ e.Reason

/-- Go `error` values reachable in this file. `view` wraps a `*viewError`;
`noResults` is the sentinel `ErrNoResults` defined elsewhere in the repository;
`jsonError` stands for an opaque `encoding/json` decode error; `other` stands
for opaque collaborator errors (endpoint lookup, transport, `q.getInfo`). -/
inductive GoError where
  | view (e : viewError)
  | noResults
  | jsonError (s : String)
  | other (s : String)
deriving DecidableEq, Repr

/-- Embeds the Go struct `viewResponse` (the decoded envelope), source lines 10-15. -/
structure viewResponse where
  TotalRows : Int
  Rows : List RawMessage
  Error : String
  Reason : String
deriving DecidableEq, Repr

/-- Embeds the Go struct `viewResults` (the row iterator state), source lines 40-45. -/
structure viewResults where
  index : Int
  rows : List RawMessage
  totalRows : Int
  err : Option GoError
deriving DecidableEq, Repr

/-- Embeds `(r *viewResults) NextBytes()`, source lines 65-76: if an error is
set or the cursor is at/past the last row, return `nil` without mutation;
otherwise advance `index` and return `rows[index]`. -/
def viewResults.NextBytes (r : viewResults) : Option RawMessage × viewResults :=
  match r.err with
  | some _ => (none, r)
  | none =>
    if r.index + 1 ≥ (r.rows.length : Int) then
      (none, r)
    else
      let r2 : viewResults := { r with index := r.index + 1 }
      (some ((r2.rows.get? r2.index.toNat).getD ""), r2)

/-- Embeds `(r *viewResults) Next(valuePtr)`, source lines 47-63: returns the
boolean result, the updated state, and the value written through `valuePtr`
when the row decodes. `decode` stands for `json.Unmarshal` at the caller's
target type. -/
def viewResults.Next {α : Type} (decode : RawMessage → Except GoError α)
    (r : viewResults) : Bool × viewResults × Option α :=
  match r.err with
  | some _ => (false, r, none)
  | none =>
    match r.NextBytes with
    | (none, r1) => (false, r1, none)
    | (some row, r1) =>
      match decode row with
      | .error e => (false, { r1 with err := some e }, none)
      | .ok v => (true, r1, some v)

/-- Embeds `(r *viewResults) Close()`, source lines 78-80. -/
def viewResults.Close (r : viewResults) : Option GoError :=
  r.err

/-- Embeds `(r *viewResults) One(valuePtr)`, source lines 82-99: one `Next`;
on failure surface `Close()`'s error or else `ErrNoResults`; on success
suppress any close-time error. -/
def viewResults.One {α : Type} (decode : RawMessage → Except GoError α)
    (r : viewResults) : Option GoError × viewResults × Option α :=
  match r.Next decode with
  | (false, r1, _) =>
    match r1.Close with
    | some e => (some e, r1, none)
    | none => (some GoError.noResults, r1, none)
  | (true, r1, v) => (none, r1, v)

/-- Embeds `(r *viewResults) TotalRows()`, source lines 101-103. -/
def viewResults.TotalRows (r : viewResults) : Int :=
  r.totalRows

/-- Basic-auth credentials, the pair returned by the cluster authenticator or
assembled from the bucket name and password. -/
structure Credentials where
  Username : String
  Password : String
deriving DecidableEq, Repr

/-- The outbound HTTP GET request: the composed URI and the basic-auth pair set
by `req.SetBasicAuth`. -/
structure HttpRequest where
  uri : String
  username : String
  password : String
deriving DecidableEq, Repr

/-- The HTTP response as the executor observes it: the status code and the
predetermined outcome of decoding its body into a `viewResponse` envelope
(`jsonDec.Decode(&viewResp)`, source lines 131-132). -/
structure HttpResponse where
  StatusCode : Int
  Body : Except GoError viewResponse

/-- The bucket state that `executeViewQuery` reads: its name and password, the
optional cluster authenticator (`b.cluster.auth`, exposing `bucketViews`), and
the outcome of `b.getViewEp()` (an external endpoint-resolution collaborator,
modelled by its result). -/
structure Bucket where
  name : String
  password : String
  auth : Option (String → Credentials)
  viewEp : Except GoError String

/-- Embeds `b.getViewEp()` (defined outside this file in the repository); the
bucket carries its outcome. -/
def Bucket.getViewEp (b : Bucket) : Except GoError String :=
  b.viewEp

/-- Observable side effects of one `executeViewQuery` call: the request handed
to the HTTP transport (`none` when no request was dispatched) and whether
`resp.Body.Close()` (source line 137) was reached. -/
structure ExecEffects where
  request : Option HttpRequest
  bodyClosed : Bool
deriving DecidableEq, Repr

/-- Embeds `(b *Bucket) executeViewQuery`, source lines 105-161. `transport`
stands for `doHttpWithTimeout`; `options` is the already-encoded query string
(`options.Encode()`). Note: on envelope-decode failure (source lines 133-135)
the function returns before reaching `resp.Body.Close()` on line 137, so
`bodyClosed` is `false` on that path, exactly as in the source. The close
error on line 137 is logged and suppressed, so it is not modelled. -/
def executeViewQuery (b : Bucket)
    (transport : HttpRequest → Except GoError HttpResponse)
    (viewType ddoc viewName options : String) :
    Except GoError viewResults × ExecEffects :=
  match b.getViewEp with
  | .error e => (.error e, ⟨none, false⟩)
  | .ok capiEp =>
    let reqUri := capiEp ++ "/_design/" ++ ddoc ++ "/" ++ viewType ++ "/"
      ++ viewName ++ "?" ++ options
    let req : HttpRequest :=
      match b.auth with
      | some bucketViews =>
        { uri := reqUri
          username := (bucketViews b.name).Username
          password := (bucketViews b.name).Password }
      | none => { uri := reqUri, username := b.name, password := b.password }
    match transport req with
    | .error e => (.error e, ⟨some req, false⟩)
    | .ok resp =>
      match resp.Body with
      | .error e => (.error e, ⟨some req, false⟩)
      | .ok viewResp =>
        if resp.StatusCode ≠ 200 then
          if viewResp.Error ≠ "" then
            (.error (.view ⟨viewResp.Error, viewResp.Reason⟩), ⟨some req, true⟩)
          else
            (.error (.view ⟨"HTTP Error",
              "Status code was " ++ toString resp.StatusCode ++ "."⟩),
              ⟨some req, true⟩)
        else
          (.ok ⟨-1, viewResp.Rows, viewResp.TotalRows, none⟩, ⟨some req, true⟩)

/-- Modelled from the spec: `ViewQuery.getInfo` is defined outside this file in
the repository; per the spec the facade "extracts
`(designDocument, viewOrIndexName, parameterSet, error)` from the caller's
query specification". The query carries the outcome of that extraction. -/
structure ViewQuery where
  getInfo : Except GoError (String × String × String)

/-- Modelled from the spec: `SpatialQuery.getInfo`, as for `ViewQuery`. -/
structure SpatialQuery where
  getInfo : Except GoError (String × String × String)

/-- Embeds `(b *Bucket) ExecuteViewQuery`, source lines 164-171. -/
def Bucket.ExecuteViewQuery (b : Bucket)
    (transport : HttpRequest → Except GoError HttpResponse)
    (q : ViewQuery) : Except GoError viewResults × ExecEffects :=
  match q.getInfo with
  | .error e => (.error e, ⟨none, false⟩)
  | .ok (ddoc, name, opts) => executeViewQuery b transport "_view" ddoc name opts

/-- Embeds `(b *Bucket) ExecuteSpatialQuery`, source lines 174-181. -/
def Bucket.ExecuteSpatialQuery (b : Bucket)
    (transport : HttpRequest → Except GoError HttpResponse)
    (q : SpatialQuery) : Except GoError viewResults × ExecEffects :=
  match q.getInfo with
  | .error e => (.error e, ⟨none, false⟩)
  | .ok (ddoc, name, opts) => executeViewQuery b transport "_spatial" ddoc name opts

/-- Runs `Next` a given number of times, collecting each call's boolean result
and the value written through the target pointer. Used to state iteration
properties over whole row sequences. -/
def runNexts {α : Type} (decode : RawMessage → Except GoError α) :
    Nat → viewResults → List (Bool × Option α) × viewResults
  | 0, r => ([], r)
  | n + 1, r =>
    match r.Next decode with
    | (b, r1, v) =>
      let rest := runNexts decode n r1
      ((b, v) :: rest.1, rest.2)


lemma NextBytes_of_err (r : viewResults) (e : GoError) (h : r.err = some e) :
    r.NextBytes = (none, r) := by
  simp [viewResults.NextBytes, h]

lemma Next_of_err {α : Type} (decode : RawMessage → Except GoError α)
    (r : viewResults) (e : GoError) (h : r.err = some e) :
    r.Next decode = (false, r, none) := by
  simp [viewResults.Next, h]

lemma NextBytes_exhausted (r : viewResults) (h1 : r.err = none)
    (h2 : (r.rows.length : Int) ≤ r.index + 1) :
    r.NextBytes = (none, r) := by
  simp [viewResults.NextBytes, h1, h2]

lemma Next_exhausted {α : Type} (decode : RawMessage → Except GoError α)
    (r : viewResults) (h1 : r.err = none)
    (h2 : (r.rows.length : Int) ≤ r.index + 1) :
    r.Next decode = (false, r, none) := by
  simp [viewResults.Next, h1, NextBytes_exhausted r h1 h2]

lemma Next_ok_step {α : Type} (f : RawMessage → α) (pre suf : List RawMessage)
    (m : RawMessage) (t : Int) :
    viewResults.Next (fun x => .ok (f x))
      ⟨(pre.length : Int) - 1, pre ++ m :: suf, t, none⟩
      = (true, ⟨(pre.length : Int), pre ++ m :: suf, t, none⟩, some (f m)) := by
  have hcond : ¬ ((pre.length : Int) - 1 + 1 ≥ (((pre ++ m :: suf).length : Nat) : Int)) := by
    simp [List.length_append]
  have hidx : ((pre.length : Int) - 1 + 1).toNat = pre.length := by omega
  have hget : (pre ++ m :: suf).get? pre.length = some m := by
    rw [List.get?_eq_getElem?, List.getElem?_append_right le_rfl]
    simp
  have hb : viewResults.NextBytes ⟨(pre.length : Int) - 1, pre ++ m :: suf, t, none⟩
      = (some m, ⟨(pre.length : Int), pre ++ m :: suf, t, none⟩) := by
    simp only [viewResults.NextBytes]
    rw [if_neg hcond]
    simp [hidx, hget, List.getElem_append_right]
  simp [viewResults.Next, hb]



lemma runNexts_ok {α : Type} (f : RawMessage → α) (t : Int)
    (suf : List RawMessage) :
    ∀ (pre : List RawMessage),
      runNexts (fun x => .ok (f x)) suf.length
          ⟨(pre.length : Int) - 1, pre ++ suf, t, none⟩
        = (suf.map (fun m => (true, some (f m))),
           ⟨((pre.length + suf.length : Nat) : Int) - 1, pre ++ suf, t, none⟩) := by
  induction suf with
  | nil =>
    intro pre
    simp [runNexts]
  | cons m suf ih =>
    intro pre
    have hstep := Next_ok_step f pre suf m t
    have ihm := ih (pre ++ [m])
    rw [show (pre ++ [m]) ++ suf = pre ++ m :: suf by simp] at ihm
    rw [show ((pre ++ [m]).length : Int) - 1 = (pre.length : Int) by simp] at ihm
    simp only [List.length_cons, runNexts, hstep]
    rw [ihm]
    simp [List.length_append]
    omega

/-- C3: once the iterator's terminal error field is set, every subsequent `Next`
call returns `false` and every subsequent `NextBytes` call returns nothing,
neither mutates the iterator state (the returned state is the input state),
`Close` returns exactly that error, and hence no further row is ever returned. -/
theorem C3_sticky_terminal_error {α : Type} (decode : RawMessage → Except GoError α)
    (r : viewResults) (e : GoError) (h : r.err = some e) :
    r.Next decode = (false, r, none)
    ∧ r.NextBytes = (none, r)
    ∧ r.Close = some e :=
  ⟨Next_of_err decode r e h, NextBytes_of_err r e h, h⟩

/-- Witness for C3 at a concrete faulted iterator: a decode error recorded on
row 3 of 5 (`index = 2`). -/
theorem C3_witness :
    viewResults.Next (fun s => (.ok s : Except GoError RawMessage))
        ⟨2, ["a", "b", "c", "d", "e"], 5, some (GoError.jsonError "bad row")⟩
      = (false, ⟨2, ["a", "b", "c", "d", "e"], 5, some (GoError.jsonError "bad row")⟩, none)
    ∧ viewResults.NextBytes
        ⟨2, ["a", "b", "c", "d", "e"], 5, some (GoError.jsonError "bad row")⟩
      = (none, ⟨2, ["a", "b", "c", "d", "e"], 5, some (GoError.jsonError "bad row")⟩)
    ∧ viewResults.Close
        ⟨2, ["a", "b", "c", "d", "e"], 5, some (GoError.jsonError "bad row")⟩
      = some (GoError.jsonError "bad row") :=
  C3_sticky_terminal_error _ _ _ rfl

/-- C4: over an envelope of N rows that all decode, exactly N `Next` calls
succeed, producing the decoded payloads in envelope order, after which
`NextBytes` returns nothing and `Next` returns `false`, both leaving the state
unchanged (idempotent exhaustion). -/
theorem C4_ordered_iteration {α : Type}
    (f : RawMessage → α) (rows : List RawMessage) (t : Int) :
    runNexts (fun x => .ok (f x)) rows.length ⟨-1, rows, t, none⟩
      = (rows.map (fun m => (true, some (f m))),
         ⟨(rows.length : Int) - 1, rows, t, none⟩)
    ∧ viewResults.NextBytes ⟨(rows.length : Int) - 1, rows, t, none⟩
      = (none, ⟨(rows.length : Int) - 1, rows, t, none⟩)
    ∧ viewResults.Next (fun x => .ok (f x)) ⟨(rows.length : Int) - 1, rows, t, none⟩
      = (false, ⟨(rows.length : Int) - 1, rows, t, none⟩, none) := by
  refine ⟨?_, ?_, ?_⟩
  · have h := runNexts_ok f t rows []
    simpa using h
  · exact NextBytes_exhausted _ rfl
      (by show (rows.length : Int) ≤ (rows.length : Int) - 1 + 1; omega)
  · exact Next_exhausted _ _ rfl
      (by show (rows.length : Int) ≤ (rows.length : Int) - 1 + 1; omega)

/-- C5: `One` on a zero-row iterator returns the dedicated no-results error
(distinct from a query error) without mutating state; calling it again on the
returned state yields the same outcome; `One` on a single decodable row returns
no error and yields that row's decoded value. -/
theorem C5_one_semantics {α : Type} (decode : RawMessage → Except GoError α)
    (f : RawMessage → α) (m : RawMessage) (t t2 : Int) :
    viewResults.One decode ⟨-1, [], t, none⟩
      = (some GoError.noResults, ⟨-1, ([] : List RawMessage), t, none⟩, none)
    ∧ viewResults.One decode ((viewResults.One decode ⟨-1, [], t, none⟩).2.1)
      = (some GoError.noResults, ⟨-1, ([] : List RawMessage), t, none⟩, none)
    ∧ viewResults.One (fun x => .ok (f x)) ⟨-1, [m], t2, none⟩
      = (none, ⟨0, [m], t2, none⟩, some (f m))
    ∧ (∀ e : viewError, GoError.noResults ≠ GoError.view e) := by
  have hempty : viewResults.Next decode ⟨-1, ([] : List RawMessage), t, none⟩
      = (false, ⟨-1, [], t, none⟩, none) :=
    Next_exhausted decode _ rfl (by show ((0:Nat) : Int) ≤ -1 + 1; omega)
  have h1 : viewResults.One decode ⟨-1, ([] : List RawMessage), t, none⟩
      = (some GoError.noResults, ⟨-1, ([] : List RawMessage), t, none⟩, none) := by
    simp [viewResults.One, hempty, viewResults.Close]
  have hone : viewResults.Next (fun x => (.ok (f x) : Except GoError α)) ⟨-1, [m], t2, none⟩
      = (true, ⟨0, [m], t2, none⟩, some (f m)) := by
    have h := Next_ok_step f [] [] m t2
    simpa using h
  refine ⟨h1, by rw [h1]; exact h1, ?_, by intro e he; cases he⟩
  simp [viewResults.One, hone, viewResults.Close]

/-- C10: a successful `One` does not exhaust the iterator: over two or more
decodable rows, `One` succeeds having consumed only row 1, and a subsequent
`Next` on the resulting state still succeeds and decodes row 2; `Close` is a
pure read of the error field and never alters state. -/
theorem C10_one_does_not_exhaust {α : Type} (f : RawMessage → α)
    (m1 m2 : RawMessage) (rest : List RawMessage) (t : Int) :
    viewResults.One (fun x => .ok (f x)) ⟨-1, m1 :: m2 :: rest, t, none⟩
      = (none, ⟨0, m1 :: m2 :: rest, t, none⟩, some (f m1))
    ∧ viewResults.Next (fun x => .ok (f x)) ⟨0, m1 :: m2 :: rest, t, none⟩
      = (true, ⟨1, m1 :: m2 :: rest, t, none⟩, some (f m2))
    ∧ (∀ r : viewResults, r.Close = r.err) := by
  have h1 := Next_ok_step f [] (m2 :: rest) m1 t
  have h2 := Next_ok_step f [m1] rest m2 t
  simp only [List.length_nil, List.length_cons, List.nil_append, List.cons_append,
    Nat.cast_zero, Nat.cast_one, zero_sub] at h1 h2
  norm_num at h1 h2
  refine ⟨?_, ?_, fun r => rfl⟩
  · simp [viewResults.One, h1, viewResults.Close]
  · exact h2


/-- C1 counterexample: with HTTP status 200 and an envelope whose error field
is the non-empty string "bad_request", `executeViewQuery` succeeds and returns
an iterator instead of failing with that error, refuting the claim that the
application-level error takes precedence regardless of status code. -/
theorem C1_counterexample :
    (executeViewQuery ⟨"bkt", "pw", none, .ok "http://ep"⟩
        (fun _ => .ok ⟨200, .ok ⟨10, ["row1"], "bad_request", "missing parameter"⟩⟩)
        "_view" "ddoc1" "view1" "stale=false").1
      = .ok ⟨-1, ["row1"], 10, none⟩
    ∧ ("bad_request" : String) ≠ "" :=
  ⟨rfl, by decide⟩

/-- C1 (amended): when the HTTP status is not 200 and the envelope's error
field is non-empty, execution fails with a query error carrying the envelope's
error string as message and its reason string as reason, taking precedence over
the generic HTTP-status error; the envelope error field is only consulted on
the non-200 path. -/
theorem C1_amended_error_precedence (b : Bucket) (ep : String)
    (resp : HttpResponse) (env : viewResponse) (vt dd vn o : String)
    (h1 : b.viewEp = .ok ep) (h2 : resp.Body = .ok env)
    (h3 : resp.StatusCode ≠ 200) (h4 : env.Error ≠ "") :
    (executeViewQuery b (fun _ => .ok resp) vt dd vn o).1
      = .error (.view ⟨env.Error, env.Reason⟩) := by
  rcases hauth : b.auth with _ | a <;>
    simp [executeViewQuery, Bucket.getViewEp, h1, hauth, h2, h3, h4]

/-- Witness for the amended C1 at status 500 with envelope error
"bad_request" / reason "missing parameter". -/
theorem C1_amended_witness :
    (executeViewQuery ⟨"bkt", "pw", none, .ok "http://ep"⟩
        (fun _ => .ok ⟨500, .ok ⟨0, [], "bad_request", "missing parameter"⟩⟩)
        "_view" "ddoc1" "view1" "").1
      = .error (.view ⟨"bad_request", "missing parameter"⟩) :=
  C1_amended_error_precedence _ _ _ _ _ _ _ _ rfl rfl (by decide) (by decide)

/-- C2: evaluation of the code at the failing input: when the envelope decode
fails, `executeViewQuery` returns the decode error without ever reaching
`resp.Body.Close()`, so the response body is not released on the decode-failure
path (the claim's guaranteed-release property does not hold there). -/
theorem C2_decode_failure_skips_body_close :
    (executeViewQuery ⟨"bkt", "pw", none, .ok "http://ep"⟩
        (fun _ => .ok ⟨200, .error (.jsonError "unexpected end of JSON input")⟩)
        "_view" "ddoc1" "view1" "").2.bodyClosed = false
    ∧ (executeViewQuery ⟨"bkt", "pw", none, .ok "http://ep"⟩
        (fun _ => .ok ⟨200, .error (.jsonError "unexpected end of JSON input")⟩)
        "_view" "ddoc1" "view1" "").1
      = .error (.jsonError "unexpected end of JSON input") :=
  ⟨rfl, rfl⟩

/-- C6: when the HTTP status is not 200 and the envelope's error field is
empty, execution fails with message "HTTP Error" and reason
"Status code was <code>." with the actual status code substituted. -/
theorem C6_http_status_error (b : Bucket) (ep : String)
    (resp : HttpResponse) (env : viewResponse) (vt dd vn o : String)
    (h1 : b.viewEp = .ok ep) (h2 : resp.Body = .ok env)
    (h3 : resp.StatusCode ≠ 200) (h4 : env.Error = "") :
    (executeViewQuery b (fun _ => .ok resp) vt dd vn o).1
      = .error (.view ⟨"HTTP Error",
          "Status code was " ++ toString resp.StatusCode ++ "."⟩) := by
  rcases hauth : b.auth with _ | a <;>
    simp [executeViewQuery, Bucket.getViewEp, h1, hauth, h2, h3, h4]

/-- Witness for C6 at status 404: the reason is the literal string
"Status code was 404.". -/
theorem C6_witness :
    (executeViewQuery ⟨"bkt", "pw", none, .ok "http://ep"⟩
        (fun _ => .ok ⟨404, .ok ⟨0, [], "", ""⟩⟩)
        "_view" "ddoc1" "view1" "").1
      = .error (.view ⟨"HTTP Error", "Status code was 404."⟩) :=
  C6_http_status_error _ _ _ _ _ _ _ _ rfl rfl (by decide) rfl


lemma totalRows_NextBytes (r : viewResults) :
    (r.NextBytes.2).totalRows = r.totalRows := by
  rcases herr : r.err with _ | e
  · simp only [viewResults.NextBytes, herr]
    split <;> simp
  · simp [viewResults.NextBytes, herr]

lemma totalRows_Next {α : Type} (decode : RawMessage → Except GoError α)
    (r : viewResults) : ((r.Next decode).2.1).totalRows = r.totalRows := by
  rcases herr : r.err with _ | e
  · rcases hnb : r.NextBytes with ⟨row, r1⟩
    have hr1 : r1.totalRows = r.totalRows := by
      have h := totalRows_NextBytes r
      rw [hnb] at h
      exact h
    rcases row with _ | row
    · simp [viewResults.Next, herr, hnb, hr1]
    · rcases hdec : decode row with e | v <;>
        simp [viewResults.Next, herr, hnb, hdec, hr1]
  · simp [viewResults.Next, herr]

lemma totalRows_One {α : Type} (decode : RawMessage → Except GoError α)
    (r : viewResults) : ((r.One decode).2.1).totalRows = r.totalRows := by
  rcases hn : r.Next decode with ⟨b1, r1, v⟩
  have hr1 : r1.totalRows = r.totalRows := by
    have h := totalRows_Next decode r
    rw [hn] at h
    exact h
  rcases b1
  · rcases hc : r1.Close with _ | e <;> simp [viewResults.One, hn, hc, hr1]
  · simp [viewResults.One, hn, hr1]

/-- C7: the iterator built by a successful execution carries the envelope's
declared `TotalRows` value, `TotalRows()` returns that field, and no iterator
operation (`Next`, `NextBytes`, `One`) ever changes it — including the
decode-failure paths, since the quantification is over arbitrary iterator
states and decode functions. -/
theorem C7_totalRows_stable {α : Type} (decode : RawMessage → Except GoError α)
    (r : viewResults) (b : Bucket) (ep : String) (env : viewResponse)
    (vt dd vn o : String) (h1 : b.viewEp = .ok ep) :
    (executeViewQuery b (fun _ => .ok ⟨200, .ok env⟩) vt dd vn o).1
      = .ok ⟨-1, env.Rows, env.TotalRows, none⟩
    ∧ viewResults.TotalRows ⟨-1, env.Rows, env.TotalRows, none⟩ = env.TotalRows
    ∧ ((r.Next decode).2.1).TotalRows = r.TotalRows
    ∧ (r.NextBytes.2).TotalRows = r.TotalRows
    ∧ ((r.One decode).2.1).TotalRows = r.TotalRows := by
  refine ⟨?_, rfl, totalRows_Next decode r, totalRows_NextBytes r, totalRows_One decode r⟩
  rcases hauth : b.auth with _ | a <;>
    simp [executeViewQuery, Bucket.getViewEp, h1, hauth]

/-- Witness for C7 on a concrete envelope declaring 7 total rows while
materializing only 2. -/
theorem C7_witness :
    (executeViewQuery ⟨"bkt", "pw", none, .ok "http://ep"⟩
        (fun _ => .ok ⟨200, .ok ⟨7, ["r1", "r2"], "", ""⟩⟩)
        "_view" "ddoc1" "view1" "").1
      = .ok ⟨-1, ["r1", "r2"], 7, none⟩
    ∧ viewResults.TotalRows ⟨-1, ["r1", "r2"], 7, none⟩ = 7
    ∧ ((viewResults.Next (fun s => (.ok s : Except GoError RawMessage))
          ⟨-1, ["r1", "r2"], 7, none⟩).2.1).TotalRows
        = viewResults.TotalRows ⟨-1, ["r1", "r2"], 7, none⟩
    ∧ ((viewResults.NextBytes ⟨-1, ["r1", "r2"], 7, none⟩).2).TotalRows
        = viewResults.TotalRows ⟨-1, ["r1", "r2"], 7, none⟩
    ∧ ((viewResults.One (fun s => (.ok s : Except GoError RawMessage))
          ⟨-1, ["r1", "r2"], 7, none⟩).2.1).TotalRows
        = viewResults.TotalRows ⟨-1, ["r1", "r2"], 7, none⟩ :=
  C7_totalRows_stable _ _ _ _ ⟨7, ["r1", "r2"], "", ""⟩ _ _ _ _ rfl


lemma request_of_ok_ep (b : Bucket)
    (transport : HttpRequest → Except GoError HttpResponse)
    (vt dd vn o ep : String) (h1 : b.viewEp = .ok ep) :
    (executeViewQuery b transport vt dd vn o).2.request
      = some ⟨ep ++ "/_design/" ++ dd ++ "/" ++ vt ++ "/" ++ vn ++ "?" ++ o,
          (match b.auth with
           | some a => (a b.name).Username
           | none => b.name),
          (match b.auth with
           | some a => (a b.name).Password
           | none => b.password)⟩ := by
  rcases hauth : b.auth with _ | a <;>
  · simp only [executeViewQuery, Bucket.getViewEp, h1, hauth]
    split
    · rfl
    · split
      · rfl
      · split
        · split
          · rfl
          · rfl
        · rfl

/-- C8: per call, when a cluster authenticator is configured the dispatched
request carries the username/password pair the authenticator returns for the
bucket name; otherwise it carries basic auth with the bucket name and the
bucket password. -/
theorem C8_credential_selection (b : Bucket)
    (transport : HttpRequest → Except GoError HttpResponse)
    (vt dd vn o ep : String) (h1 : b.viewEp = .ok ep) :
    (∀ a, b.auth = some a →
      (executeViewQuery b transport vt dd vn o).2.request
        = some ⟨ep ++ "/_design/" ++ dd ++ "/" ++ vt ++ "/" ++ vn ++ "?" ++ o,
            (a b.name).Username, (a b.name).Password⟩)
    ∧ (b.auth = none →
      (executeViewQuery b transport vt dd vn o).2.request
        = some ⟨ep ++ "/_design/" ++ dd ++ "/" ++ vt ++ "/" ++ vn ++ "?" ++ o,
            b.name, b.password⟩) := by
  have h := request_of_ok_ep b transport vt dd vn o ep h1
  constructor
  · intro a hauth
    rw [h, hauth]
  · intro hauth
    rw [h, hauth]

/-- Witness for C8: one call with an authenticator configured and one with
the bucket-credential fallback. -/
theorem C8_witness :
    (executeViewQuery ⟨"bkt", "pw", some (fun n => ⟨n ++ "_user", "tok"⟩), .ok "http://ep"⟩
        (fun _ => .ok ⟨200, .ok ⟨0, [], "", ""⟩⟩) "_view" "d" "v" "x=1").2.request
      = some ⟨"http://ep/_design/d/_view/v?x=1", "bkt_user", "tok"⟩
    ∧ (executeViewQuery ⟨"bkt2", "pw2", none, .ok "http://ep"⟩
        (fun _ => .ok ⟨200, .ok ⟨0, [], "", ""⟩⟩) "_view" "d" "v" "x=1").2.request
      = some ⟨"http://ep/_design/d/_view/v?x=1", "bkt2", "pw2"⟩ :=
  ⟨(C8_credential_selection ⟨"bkt", "pw", some (fun n => ⟨n ++ "_user", "tok"⟩), .ok "http://ep"⟩
      (fun _ => .ok ⟨200, .ok ⟨0, [], "", ""⟩⟩) "_view" "d" "v" "x=1" "http://ep" rfl).1 _ rfl,
   (C8_credential_selection ⟨"bkt2", "pw2", none, .ok "http://ep"⟩
      (fun _ => .ok ⟨200, .ok ⟨0, [], "", ""⟩⟩) "_view" "d" "v" "x=1" "http://ep" rfl).2 rfl⟩

/-- C9: every dispatched view or spatial request has URI
`endpoint + "/_design/" + ddoc + "/" + kind + "/" + name + "?" + params` with
kind `_view` for view queries and `_spatial` for spatial queries; when the
facade's parameter extraction (`getInfo`) fails, the error is returned and no
request is dispatched. -/
theorem C9_uri_composition_and_no_dispatch_on_error (b : Bucket)
    (transport : HttpRequest → Except GoError HttpResponse)
    (ep : String) (q : ViewQuery) (sq : SpatialQuery)
    (h1 : b.viewEp = .ok ep) :
    (∀ dd vn o, q.getInfo = .ok (dd, vn, o) →
      ∃ req, (b.ExecuteViewQuery transport q).2.request = some req
        ∧ req.uri = ep ++ "/_design/" ++ dd ++ "/" ++ "_view" ++ "/" ++ vn ++ "?" ++ o)
    ∧ (∀ dd vn o, sq.getInfo = .ok (dd, vn, o) →
      ∃ req, (b.ExecuteSpatialQuery transport sq).2.request = some req
        ∧ req.uri = ep ++ "/_design/" ++ dd ++ "/" ++ "_spatial" ++ "/" ++ vn ++ "?" ++ o)
    ∧ (∀ e, q.getInfo = .error e →
      b.ExecuteViewQuery transport q = (.error e, ⟨none, false⟩))
    ∧ (∀ e, sq.getInfo = .error e →
      b.ExecuteSpatialQuery transport sq = (.error e, ⟨none, false⟩)) := by
  refine ⟨?_, ?_, ?_, ?_⟩
  · intro dd vn o hq
    exact ⟨⟨ep ++ "/_design/" ++ dd ++ "/" ++ "_view" ++ "/" ++ vn ++ "?" ++ o,
        (match b.auth with | some a => (a b.name).Username | none => b.name),
        (match b.auth with | some a => (a b.name).Password | none => b.password)⟩,
      by simp only [Bucket.ExecuteViewQuery, hq]
         exact request_of_ok_ep b transport "_view" dd vn o ep h1,
      rfl⟩
  · intro dd vn o hq
    exact ⟨⟨ep ++ "/_design/" ++ dd ++ "/" ++ "_spatial" ++ "/" ++ vn ++ "?" ++ o,
        (match b.auth with | some a => (a b.name).Username | none => b.name),
        (match b.auth with | some a => (a b.name).Password | none => b.password)⟩,
      by simp only [Bucket.ExecuteSpatialQuery, hq]
         exact request_of_ok_ep b transport "_spatial" dd vn o ep h1,
      rfl⟩
  · intro e hq
    simp [Bucket.ExecuteViewQuery, hq]
  · intro e hq
    simp [Bucket.ExecuteSpatialQuery, hq]

/-- Witness for C9: concrete view and spatial dispatches and a concrete
extraction failure with no dispatch. -/
theorem C9_witness :
    (∃ req, (Bucket.ExecuteViewQuery ⟨"bkt", "pw", none, .ok "http://ep"⟩
        (fun _ => .ok ⟨200, .ok ⟨0, [], "", ""⟩⟩) ⟨.ok ("d", "v", "x=1")⟩).2.request = some req
      ∧ req.uri = "http://ep/_design/d/_view/v?x=1")
    ∧ (∃ req, (Bucket.ExecuteSpatialQuery ⟨"bkt", "pw", none, .ok "http://ep"⟩
        (fun _ => .ok ⟨200, .ok ⟨0, [], "", ""⟩⟩) ⟨.ok ("d", "v", "x=1")⟩).2.request = some req
      ∧ req.uri = "http://ep/_design/d/_spatial/v?x=1")
    ∧ Bucket.ExecuteViewQuery ⟨"bkt", "pw", none, .ok "http://ep"⟩
        (fun _ => .ok ⟨200, .ok ⟨0, [], "", ""⟩⟩) ⟨.error (.other "no ddoc specified")⟩
        = (.error (.other "no ddoc specified"), ⟨none, false⟩) :=
  ⟨(C9_uri_composition_and_no_dispatch_on_error ⟨"bkt", "pw", none, .ok "http://ep"⟩
      (fun _ => .ok ⟨200, .ok ⟨0, [], "", ""⟩⟩) "http://ep" ⟨.ok ("d", "v", "x=1")⟩
      ⟨.ok ("d", "v", "x=1")⟩ rfl).1 "d" "v" "x=1" rfl,
   (C9_uri_composition_and_no_dispatch_on_error ⟨"bkt", "pw", none, .ok "http://ep"⟩
      (fun _ => .ok ⟨200, .ok ⟨0, [], "", ""⟩⟩) "http://ep" ⟨.ok ("d", "v", "x=1")⟩
      ⟨.ok ("d", "v", "x=1")⟩ rfl).2.1 "d" "v" "x=1" rfl,
   (C9_uri_composition_and_no_dispatch_on_error ⟨"bkt", "pw", none, .ok "http://ep"⟩
      (fun _ => .ok ⟨200, .ok ⟨0, [], "", ""⟩⟩) "http://ep" ⟨.error (.other "no ddoc specified")⟩
      ⟨.ok ("d", "v", "x=1")⟩ rfl).2.2.1 _ rfl⟩

end gocb
